import Mathlib

/-!
Verification of the terrain pipeline in `src/pipeline/fetch_terrain.py`.

Elevation grids are 2D arrays of floats in the source; here they are
`List (List ℚ)` (row-major), with exact rational arithmetic standing in for
IEEE floats.  Python `int()` truncation toward zero is `truncInt`.
-/

namespace FloodSim

/-- An elevation grid: rows of cells, row-major, as in the numpy 2D array. -/
abbrev Grid := List (List ℚ)

/-- Number of columns, `shape[1]` of the numpy array (length of the first row). -/
def gridCols (g : Grid) : ℕ := (g.headD []).length

/-- `elev_data[r, c]` with out-of-range access defaulting to 0 (never hit on
well-formed rectangular grids). -/
def cellAt (g : Grid) (r c : ℕ) : ℚ := (g.getD r []).getD c 0

/-- A well-formed numpy 2D array is rectangular: every row has `gridCols g` cells. -/
def Rect (g : Grid) : Prop := ∀ row ∈ g, row.length = gridCols g

instance (g : Grid) : Decidable (Rect g) := by unfold Rect; infer_instance

/-- `ndarray.min()` on a flat list (0 on the empty list, which numpy rejects). -/
def listMin : List ℚ → ℚ
  | [] => 0
  | x :: xs => xs.foldl min x

/-- `ndarray.max()` on a flat list (0 on the empty list, which numpy rejects). -/
def listMax : List ℚ → ℚ
  | [] => 0
  | x :: xs => xs.foldl max x

/-- `elev_data.min()`. -/
def elevMin (g : Grid) : ℚ := listMin g.flatten

/-- `elev_data.max()`. -/
def elevMax (g : Grid) : ℚ := listMax g.flatten

/-- Python `int(q)`: truncation toward zero. -/
def truncInt (q : ℚ) : ℤ := Int.tdiv q.num q.den

/-- `compute_bounds(lat, lon, radius_km)` from the source.  The transcendental
`np.cos(np.radians(lat))` is passed in symbolically as `cosLat`. -/
def compute_bounds (lat lon radius_km cosLat : ℚ) : ℚ × ℚ × ℚ × ℚ :=
  let latDegPerKm : ℚ := 1 / 111
  let lonDegPerKm : ℚ := 1 / (111 * cosLat)
  let dlat := radius_km * latDegPerKm
  let dlon := radius_km * lonDegPerKm
  (lat - dlat, lon - dlon, lat + dlat, lon + dlon)

/-- The bounds-resolution logic of `main` (lines 493-499): an explicit
`--bounds` box is used verbatim, with no validation; otherwise the box is
computed from center and radius. -/
def mainBounds (explicitBox : Option (ℚ × ℚ × ℚ × ℚ))
    (lat lon radius_km cosLat : ℚ) : ℚ × ℚ × ℚ × ℚ :=
  match explicitBox with
  | some b => b
  | none => compute_bounds lat lon radius_km cosLat

/-- `compute_vertical_exaggeration(elev_data)` from the source; `elev_range`
is inlined. -/
def compute_vertical_exaggeration (g : Grid) : ℚ :=
  if elevMax g - elevMin g < 10 then 5
  else if elevMax g - elevMin g < 50 then 3
  else if elevMax g - elevMin g < 200 then 2
  else if elevMax g - elevMin g < 500 then 3/2
  else 1

/-- `elevation_to_color(elev)` from the source: map elevation to RGB in the
0-1 range; the local `t` of each band is inlined.  Decimal literals are exact
rationals. -/
def elevation_to_color (elev : ℚ) : ℚ × ℚ × ℚ :=
  if elev < 0 then (0.18, 0.25, 0.38)
  else if elev < 5 then
    (0.55 + max 0 (elev / 5) * 0.05,
     0.52 + max 0 (elev / 5) * 0.03,
     0.35 + max 0 (elev / 5) * 0.02)
  else if elev < 30 then
    (0.15 + (elev - 5) / 25 * 0.05,
     0.45 + (elev - 5) / 25 * 0.15,
     0.10 + (elev - 5) / 25 * 0.05)
  else if elev < 80 then
    (0.20 + (elev - 30) / 50 * 0.30,
     0.60 + (elev - 30) / 50 * (-0.05),
     0.15 + (elev - 30) / 50 * 0.05)
  else if elev < 200 then
    (0.50 + (elev - 80) / 120 * 0.25,
     0.55 + (elev - 80) / 120 * (-0.15),
     0.20 + (elev - 80) / 120 * 0.12)
  else if elev < 500 then
    (0.75 + (elev - 200) / 300 * (-0.20),
     0.40 + (elev - 200) / 300 * (-0.10),
     0.32 + (elev - 200) / 300 * (-0.02))
  else
    (0.55 + min ((elev - 500) / 1000) 1 * 0.40,
     0.52 + min ((elev - 500) / 1000) 1 * 0.43,
     0.50 + min ((elev - 500) / 1000) 1 * 0.45)

/-- `int(rgb[i] * 255)` from `build_mesh` (line 403): the uint8 color channel. -/
def colorByte (x : ℚ) : ℤ := truncInt (x * 255)

/-- The crop-coordinate computation of `fetch_osm_overlay` (lines 296-313):
pixel coordinates of the requested box inside the composite canvas, then
clamped to the canvas.  Returns `(px_left, px_top, px_right, px_bottom)` as
passed to `composite.crop`. -/
def osmCropBox (south west north east nwLat nwLon seLat seLon : ℚ)
    (totalW totalH : ℤ) : ℤ × ℤ × ℤ × ℤ :=
  let pxLeft := truncInt ((west - nwLon) / (seLon - nwLon) * totalW)
  let pxRight := truncInt ((east - nwLon) / (seLon - nwLon) * totalW)
  let pxTop := truncInt ((nwLat - north) / (nwLat - seLat) * totalH)
  let pxBottom := truncInt ((nwLat - south) / (nwLat - seLat) * totalH)
  (max 0 pxLeft, max 0 pxTop, min totalW pxRight, min totalH pxBottom)

end FloodSim

namespace FloodSim

/-- Claim C5: `compute_vertical_exaggeration` is the step function of the
elevation range max − min: range < 10 gives 5.0, range in [10, 50) gives 3.0,
[50, 200) gives 2.0, [200, 500) gives 1.5, and 500 or more gives 1.0; in
particular a range of exactly 10 yields 3.0 and a range of exactly 50
yields 2.0. -/
theorem vertical_exaggeration_step (g : Grid) :
    (elevMax g - elevMin g < 10 → compute_vertical_exaggeration g = 5) ∧
    (10 ≤ elevMax g - elevMin g → elevMax g - elevMin g < 50 →
      compute_vertical_exaggeration g = 3) ∧
    (50 ≤ elevMax g - elevMin g → elevMax g - elevMin g < 200 →
      compute_vertical_exaggeration g = 2) ∧
    (200 ≤ elevMax g - elevMin g → elevMax g - elevMin g < 500 →
      compute_vertical_exaggeration g = 3/2) ∧
    (500 ≤ elevMax g - elevMin g → compute_vertical_exaggeration g = 1) ∧
    (elevMax g - elevMin g = 10 → compute_vertical_exaggeration g = 3) ∧
    (elevMax g - elevMin g = 50 → compute_vertical_exaggeration g = 2) := by
  unfold compute_vertical_exaggeration
  refine ⟨fun h => ?_, fun h1 h2 => ?_, fun h1 h2 => ?_, fun h1 h2 => ?_,
    fun h => ?_, fun h => ?_, fun h => ?_⟩
  · rw [if_pos h]
  · rw [if_neg (by linarith), if_pos h2]
  · rw [if_neg (by linarith), if_neg (by linarith), if_pos h2]
  · rw [if_neg (by linarith), if_neg (by linarith), if_neg (by linarith),
      if_pos h2]
  · rw [if_neg (by linarith), if_neg (by linarith), if_neg (by linarith),
      if_neg (by linarith)]
  · rw [if_neg (by rw [h]; norm_num), if_pos (by rw [h]; norm_num)]
  · rw [if_neg (by rw [h]; norm_num), if_neg (by rw [h]; norm_num),
      if_pos (by rw [h]; norm_num)]

/-- Witness for C5: the grid `[[0, 10]]` has range exactly 10 and yields
exaggeration 3.0; the grid `[[0, 50]]` has range exactly 50 and yields 2.0. -/
theorem vertical_exaggeration_step_witness :
    compute_vertical_exaggeration [[0, 10]] = 3 ∧
    compute_vertical_exaggeration [[0, 50]] = 2 :=
  ⟨(vertical_exaggeration_step [[0, 10]]).2.2.2.2.2.1 (by norm_num [elevMax, elevMin, listMax, listMin]),
   (vertical_exaggeration_step [[0, 50]]).2.2.2.2.2.2 (by norm_num [elevMax, elevMin, listMax, listMin])⟩

/-- Counterexample to C8: an explicitly supplied box violating south < north
(here `(1, 0, 0, 1)`) is not rejected by `main`: it is returned verbatim. -/
theorem invalid_explicit_bounds_not_rejected :
    mainBounds (some (1, 0, 0, 1)) 0 0 1 1 = (1, 0, 0, 1) ∧
    ¬ (mainBounds (some (1, 0, 0, 1)) 0 0 1 1).1 <
        (mainBounds (some (1, 0, 0, 1)) 0 0 1 1).2.2.1 := by
  refine ⟨rfl, ?_⟩
  norm_num [mainBounds]

/-- Claim C8 (amended): a box computed from center and radius satisfies
south < north and west < east whenever the radius is positive and
cos(latitude) is positive (i.e. the latitude is strictly between the poles);
an explicitly supplied box is used verbatim — no rejection is performed. -/
theorem compute_bounds_ordered (b : ℚ × ℚ × ℚ × ℚ) (lat lon radius_km cosLat : ℚ)
    (hr : 0 < radius_km) (hc : 0 < cosLat) :
    (compute_bounds lat lon radius_km cosLat).1 <
      (compute_bounds lat lon radius_km cosLat).2.2.1 ∧
    (compute_bounds lat lon radius_km cosLat).2.1 <
      (compute_bounds lat lon radius_km cosLat).2.2.2 ∧
    mainBounds (some b) lat lon radius_km cosLat = b := by
  unfold compute_bounds
  have hd : (0:ℚ) < 111 * cosLat := by linarith
  have h1 : (0:ℚ) < radius_km * (1/111) := by positivity
  have h2 : (0:ℚ) < radius_km * (1 / (111 * cosLat)) :=
    mul_pos hr (one_div_pos.mpr hd)
  exact ⟨by dsimp only; linarith, by dsimp only; linarith, rfl⟩

/-- Witness for C8: at latitude 0, longitude 0, radius 1 km and cos 0 = 1,
the computed box is ordered, and the explicit box `(1, 2, 3, 4)` passes
through unchanged. -/
theorem compute_bounds_ordered_witness :
    (compute_bounds 0 0 1 1).1 < (compute_bounds 0 0 1 1).2.2.1 ∧
    (compute_bounds 0 0 1 1).2.1 < (compute_bounds 0 0 1 1).2.2.2 ∧
    mainBounds (some (1, 2, 3, 4)) 0 0 1 1 = (1, 2, 3, 4) :=
  compute_bounds_ordered (1, 2, 3, 4) 0 0 1 1 (by norm_num) (by norm_num)

/-- Claim C9: the four crop coordinates of the map compositor are clamped
inside the composite canvas for every requested box: left and top are at
least 0, right is at most the canvas width, bottom at most the canvas
height. -/
theorem osm_crop_clamped (south west north east nwLat nwLon seLat seLon : ℚ)
    (totalW totalH : ℤ) :
    0 ≤ (osmCropBox south west north east nwLat nwLon seLat seLon totalW totalH).1 ∧
    0 ≤ (osmCropBox south west north east nwLat nwLon seLat seLon totalW totalH).2.1 ∧
    (osmCropBox south west north east nwLat nwLon seLat seLon totalW totalH).2.2.1 ≤ totalW ∧
    (osmCropBox south west north east nwLat nwLon seLat seLon totalW totalH).2.2.2 ≤ totalH := by
  unfold osmCropBox
  exact ⟨le_max_left _ _, le_max_left _ _, min_le_left _ _, min_le_left _ _⟩

/-- If a rational is nonnegative, Python truncation toward zero is the floor. -/
lemma truncInt_of_nonneg (q : ℚ) (hq : 0 ≤ q) : truncInt q = ⌊q⌋ := by
  rw [truncInt, Int.tdiv_eq_ediv (Rat.num_nonneg.mpr hq) (by positivity),
    Rat.floor_def]

/-- A channel value in [0, 1] scaled by 255 and truncated lands in [0, 255]. -/
lemma colorByte_bounds (x : ℚ) (h0 : 0 ≤ x) (h1 : x ≤ 1) :
    0 ≤ colorByte x ∧ colorByte x ≤ 255 := by
  have hx : (0:ℚ) ≤ x * 255 := by positivity
  rw [colorByte, truncInt_of_nonneg _ hx]
  refine ⟨Int.floor_nonneg.mpr hx, ?_⟩
  have hle : x * 255 ≤ 255 := by nlinarith
  calc ⌊x * 255⌋ ≤ ⌊(255:ℚ)⌋ := Int.floor_le_floor hle
    _ = 255 := by norm_num

/-- Each RGB component of `elevation_to_color` lies in [0, 1], in every band. -/
lemma elevation_to_color_bounds (elev : ℚ) :
    (0 ≤ (elevation_to_color elev).1 ∧ (elevation_to_color elev).1 ≤ 1) ∧
    (0 ≤ (elevation_to_color elev).2.1 ∧ (elevation_to_color elev).2.1 ≤ 1) ∧
    (0 ≤ (elevation_to_color elev).2.2 ∧ (elevation_to_color elev).2.2 ≤ 1) := by
  unfold elevation_to_color
  split_ifs with h0 h1 h2 h3 h4 h5 <;> dsimp only
  · norm_num
  · have ht0 : (0:ℚ) ≤ max 0 (elev / 5) := le_max_left 0 _
    have ht1 : max 0 (elev / 5) ≤ 1 := max_le (by norm_num) (by linarith)
    exact ⟨⟨by linarith, by linarith⟩, ⟨by linarith, by linarith⟩,
      ⟨by linarith, by linarith⟩⟩
  · exact ⟨⟨by linarith, by linarith⟩, ⟨by linarith, by linarith⟩,
      ⟨by linarith, by linarith⟩⟩
  · exact ⟨⟨by linarith, by linarith⟩, ⟨by linarith, by linarith⟩,
      ⟨by linarith, by linarith⟩⟩
  · exact ⟨⟨by linarith, by linarith⟩, ⟨by linarith, by linarith⟩,
      ⟨by linarith, by linarith⟩⟩
  · exact ⟨⟨by linarith, by linarith⟩, ⟨by linarith, by linarith⟩,
      ⟨by linarith, by linarith⟩⟩
  · have ht0 : (0:ℚ) ≤ min ((elev - 500) / 1000) 1 :=
      le_min (by linarith) (by norm_num)
    have ht1 : min ((elev - 500) / 1000) 1 ≤ 1 := min_le_right _ _
    exact ⟨⟨by linarith, by linarith⟩, ⟨by linarith, by linarith⟩,
      ⟨by linarith, by linarith⟩⟩

/-- Claim C10: for every elevation, each RGB component of
`elevation_to_color` lies in [0, 1], so each byte `int(component * 255)`
computed in `build_mesh` lies in [0, 255] and never overflows a uint8. -/
theorem elevation_color_bytes_in_range (elev : ℚ) :
    (0 ≤ (elevation_to_color elev).1 ∧ (elevation_to_color elev).1 ≤ 1) ∧
    (0 ≤ (elevation_to_color elev).2.1 ∧ (elevation_to_color elev).2.1 ≤ 1) ∧
    (0 ≤ (elevation_to_color elev).2.2 ∧ (elevation_to_color elev).2.2 ≤ 1) ∧
    (0 ≤ colorByte (elevation_to_color elev).1 ∧
      colorByte (elevation_to_color elev).1 ≤ 255) ∧
    (0 ≤ colorByte (elevation_to_color elev).2.1 ∧
      colorByte (elevation_to_color elev).2.1 ≤ 255) ∧
    (0 ≤ colorByte (elevation_to_color elev).2.2 ∧
      colorByte (elevation_to_color elev).2.2 ≤ 255) := by
  obtain ⟨⟨a1, a2⟩, ⟨b1, b2⟩, ⟨c1, c2⟩⟩ := elevation_to_color_bounds elev
  exact ⟨⟨a1, a2⟩, ⟨b1, b2⟩, ⟨c1, c2⟩, colorByte_bounds _ a1 a2,
    colorByte_bounds _ b1 b2, colorByte_bounds _ c1 c2⟩

/-- Counterexample to C7: at ε = 1/100 the red components on the two sides of
the elevation-5 band boundary differ by more than 2/5 — there is a
discontinuous jump from the sandy band to the green band. -/
theorem color_jump_at_five :
    (0:ℚ) < 1/100 ∧
    2/5 < (elevation_to_color (5 - 1/100)).1 -
      (elevation_to_color (5 + 1/100)).1 := by
  refine ⟨by norm_num, ?_⟩
  norm_num [elevation_to_color, max_def]

/-- Claim C7 (amended): `elevation_to_color` is discontinuous at elevation 5:
for every ε with 0 < ε ≤ 1, the red components at 5 − ε and 5 + ε differ by
at least 2/5 (the one-sided limits are (0.60, 0.55, 0.37) from below and
(0.15, 0.45, 0.10) from above). -/
theorem color_discontinuity_at_five (ε : ℚ) (h0 : 0 < ε) (h1 : ε ≤ 1) :
    2/5 ≤ (elevation_to_color (5 - ε)).1 - (elevation_to_color (5 + ε)).1 := by
  unfold elevation_to_color
  rw [if_neg (show ¬(5 - ε < (0:ℚ)) by linarith),
    if_pos (show (5:ℚ) - ε < 5 by linarith),
    if_neg (show ¬(5 + ε < (0:ℚ)) by linarith),
    if_neg (show ¬(5 + ε < (5:ℚ)) by linarith),
    if_pos (show (5:ℚ) + ε < 30 by linarith)]
  dsimp only
  rw [max_eq_right (show (0:ℚ) ≤ (5 - ε) / 5 by linarith)]
  linarith

/-- Witness for C7 (amended): at ε = 1/2 the red jump across elevation 5 is
at least 2/5. -/
theorem color_discontinuity_at_five_witness :
    2/5 ≤ (elevation_to_color (5 - 1/2)).1 -
      (elevation_to_color (5 + 1/2)).1 :=
  color_discontinuity_at_five (1/2) (by norm_num) (by norm_num)

/-! ### Mesh synthesis (`build_mesh`) and heightmap export -/

/-- The half extent `(n - 1) * cell_size_m / 2.0` used to center the mesh at
the origin. -/
def halfExtent (n : ℕ) (cellSize : ℚ) : ℚ := ((n : ℚ) - 1) * cellSize / 2

/-- The vertex `[x, y, z]` appended by `build_mesh` for grid cell (r, c). -/
def buildVertex (g : Grid) (cellSize vertExag : ℚ) (r c : ℕ) : ℚ × ℚ × ℚ :=
  ((c : ℚ) * cellSize - halfExtent (gridCols g) cellSize,
   (cellAt g r c - elevMin g) * vertExag,
   (r : ℚ) * cellSize - halfExtent g.length cellSize)

/-- The vertex list of `build_mesh`: the row-major double loop over the
grid. -/
def build_mesh_vertices (g : Grid) (cellSize vertExag : ℚ) : List (ℚ × ℚ × ℚ) :=
  (List.range g.length).flatMap fun r =>
    (List.range (gridCols g)).map fun c => buildVertex g cellSize vertExag r c

/-- The face list of `build_mesh`: two triangles per grid cell, sharing the
diagonal (i01, i10). -/
def build_mesh_faces (rows cols : ℕ) : List (ℕ × ℕ × ℕ) :=
  (List.range (rows - 1)).flatMap fun r =>
    (List.range (cols - 1)).flatMap fun c =>
      [(r * cols + c, (r + 1) * cols + c, r * cols + (c + 1)),
       (r * cols + (c + 1), (r + 1) * cols + c, (r + 1) * cols + (c + 1))]

/-- `export_heightmap(elev_data, vert_exag, elev_min)`: the flat row-major
array `(elev_data - elev_min) * vert_exag`. -/
def export_heightmap (g : Grid) (vertExag elevMinArg : ℚ) : List ℚ :=
  g.flatten.map fun e => (e - elevMinArg) * vertExag

lemma foldl_min_le_init (l : List ℚ) (a : ℚ) : l.foldl min a ≤ a := by
  induction l generalizing a with
  | nil => exact le_refl a
  | cons x xs ih => exact le_trans (ih (min a x)) (min_le_left a x)

lemma foldl_min_le_mem (l : List ℚ) : ∀ a x : ℚ, x ∈ l → l.foldl min a ≤ x := by
  induction l with
  | nil => intro a x hx; cases hx
  | cons y ys ih =>
    intro a x hx
    rcases List.mem_cons.mp hx with h | h
    · subst h
      exact le_trans (foldl_min_le_init ys (min a x)) (min_le_right a x)
    · exact ih (min a y) x h

lemma foldl_min_choice (l : List ℚ) : ∀ a : ℚ, l.foldl min a = a ∨ l.foldl min a ∈ l := by
  induction l with
  | nil => intro a; exact Or.inl rfl
  | cons y ys ih =>
    intro a
    rcases ih (min a y) with h | h
    · rcases min_choice a y with hm | hm
      · exact Or.inl (by rw [List.foldl_cons, h, hm])
      · exact Or.inr (by rw [List.foldl_cons, h, hm]; exact List.mem_cons_self y ys)
    · exact Or.inr (List.mem_cons_of_mem y h)

lemma listMin_le (l : List ℚ) (x : ℚ) (hx : x ∈ l) : listMin l ≤ x := by
  cases l with
  | nil => cases hx
  | cons y ys =>
    rcases List.mem_cons.mp hx with h | h
    · subst h; exact foldl_min_le_init ys _
    · exact foldl_min_le_mem ys y x h

lemma listMin_mem (l : List ℚ) (hl : l ≠ []) : listMin l ∈ l := by
  cases l with
  | nil => exact absurd rfl hl
  | cons y ys =>
    show ys.foldl min y ∈ y :: ys
    rcases foldl_min_choice ys y with h | h
    · rw [h]; exact List.mem_cons_self y ys
    · exact List.mem_cons_of_mem y h

lemma getD_mem (l : List ℚ) (n : ℕ) (d : ℚ) (h : n < l.length) :
    l.getD n d ∈ l := by
  rw [List.getD_eq_getElem?_getD, List.getElem?_eq_getElem h]
  exact List.getElem_mem h

lemma getD_mem_row (g : Grid) (n : ℕ) (h : n < g.length) : g.getD n [] ∈ g := by
  rw [List.getD_eq_getElem?_getD, List.getElem?_eq_getElem h]
  exact List.getElem_mem h

lemma getD_eq_getElem_row (g : Grid) (n : ℕ) (h : n < g.length) :
    g.getD n [] = g[n] := by
  rw [List.getD_eq_getElem?_getD, List.getElem?_eq_getElem h]
  rfl

lemma getD_eq_getElem_cell (l : List ℚ) (n : ℕ) (h : n < l.length) :
    l.getD n 0 = l[n] := by
  rw [List.getD_eq_getElem?_getD, List.getElem?_eq_getElem h]
  rfl

lemma cellAt_mem_flatten (g : Grid) (r c : ℕ) (hr : r < g.length)
    (hc : c < (g.getD r []).length) : cellAt g r c ∈ g.flatten :=
  List.mem_flatten_of_mem (getD_mem_row g r hr) (getD_mem _ c 0 hc)

lemma elevMin_le_cell (g : Grid) (r c : ℕ) (hr : r < g.length)
    (hc : c < (g.getD r []).length) : elevMin g ≤ cellAt g r c :=
  listMin_le _ _ (cellAt_mem_flatten g r c hr hc)

lemma map_range_getD {α β : Type} (f : α → β) (d : α) (l : List α) :
    (List.range l.length).map (fun i => f (l.getD i d)) = l.map f := by
  induction l with
  | nil => rfl
  | cons a t ih =>
    rw [List.length_cons, List.range_succ_eq_map, List.map_cons, List.map_map]
    refine congrArg₂ List.cons rfl ?_
    rw [← ih]
    exact List.map_congr_left fun i hi => rfl

lemma cell_index_lt (rows cols r c : ℕ) (hr : r < rows) (hc : c < cols) :
    r * cols + c < rows * cols :=
  calc r * cols + c < r * cols + cols := Nat.add_lt_add_left hc _
    _ = (r + 1) * cols := by ring
    _ ≤ rows * cols := Nat.mul_le_mul_right cols hr

/-- Claim C4: a mesh built from an N×N grid (N ≥ 2) with nonnegative
vertical exaggeration has exactly N² vertices, exactly 2(N−1)² faces, every
face index strictly below the vertex count, and minimum vertex
y-coordinate exactly 0 (0 is a lower bound and is attained). -/
theorem build_mesh_invariants (N : ℕ) (g : Grid) (cellSize vertExag : ℚ)
    (hN : 2 ≤ N) (hrows : g.length = N) (hrect : ∀ row ∈ g, row.length = N)
    (hexag : 0 ≤ vertExag) :
    (build_mesh_vertices g cellSize vertExag).length = N * N ∧
    (build_mesh_faces N N).length = 2 * (N - 1) * (N - 1) ∧
    (∀ f ∈ build_mesh_faces N N, f.1 < N * N ∧ f.2.1 < N * N ∧ f.2.2 < N * N) ∧
    (∀ v ∈ build_mesh_vertices g cellSize vertExag, 0 ≤ v.2.1) ∧
    (∃ v ∈ build_mesh_vertices g cellSize vertExag, v.2.1 = 0) := by
  have hg : g ≠ [] := by
    intro h; rw [h] at hrows; simp at hrows; omega
  have hcols : gridCols g = N := by
    cases g with
    | nil => exact absurd rfl hg
    | cons a t => exact hrect a (List.mem_cons_self a t)
  refine ⟨?_, ?_, ?_, ?_, ?_⟩
  · simp [build_mesh_vertices, List.length_flatMap, Function.comp_def, hrows,
      hcols, List.map_const', List.sum_replicate, smul_eq_mul]
  · simp only [build_mesh_faces, List.length_flatMap, Function.comp_def,
      List.length_cons, List.length_nil, List.map_const', List.length_range,
      List.sum_replicate, smul_eq_mul]
    ring
  · intro f hf
    simp only [build_mesh_faces, List.mem_flatMap, List.mem_range,
      List.mem_cons, List.not_mem_nil, or_false] at hf
    obtain ⟨r, hr, c, hc, hf⟩ := hf
    rcases hf with rfl | rfl
    · exact ⟨cell_index_lt N N r c (by omega) (by omega),
        cell_index_lt N N (r + 1) c (by omega) (by omega),
        cell_index_lt N N r (c + 1) (by omega) (by omega)⟩
    · exact ⟨cell_index_lt N N r (c + 1) (by omega) (by omega),
        cell_index_lt N N (r + 1) c (by omega) (by omega),
        cell_index_lt N N (r + 1) (c + 1) (by omega) (by omega)⟩
  · intro v hv
    simp only [build_mesh_vertices, List.mem_flatMap, List.mem_range,
      List.mem_map] at hv
    obtain ⟨r, hr, c, hc, rfl⟩ := hv
    have hrowlen : (g.getD r []).length = N := hrect _ (getD_mem_row g r hr)
    have hc2 : c < (g.getD r []).length := by omega
    unfold buildVertex
    exact mul_nonneg (sub_nonneg.mpr (elevMin_le_cell g r c hr hc2)) hexag
  · have hne : g.flatten ≠ [] := by
      cases g with
      | nil => exact absurd rfl hg
      | cons a t =>
        have hlen : a.length = N := hrect a (List.mem_cons_self a t)
        have ha : 0 < a.length := by omega
        exact List.ne_nil_of_mem
          (List.mem_flatten_of_mem (List.mem_cons_self a t)
            (List.getElem_mem ha))
    obtain ⟨row, hrowg, hmemrow⟩ := List.mem_flatten.mp (listMin_mem _ hne)
    obtain ⟨r, hr, hrowe⟩ := List.mem_iff_getElem.mp hrowg
    obtain ⟨c, hc, hce⟩ := List.mem_iff_getElem.mp hmemrow
    have hrowlen : row.length = N := hrect row hrowg
    refine ⟨buildVertex g cellSize vertExag r c, ?_, ?_⟩
    · simp only [build_mesh_vertices, List.mem_flatMap, List.mem_range,
        List.mem_map]
      exact ⟨r, hr, c, by omega, rfl⟩
    · have hcell : cellAt g r c = elevMin g := by
        rw [cellAt, getD_eq_getElem_row g r hr, hrowe,
          getD_eq_getElem_cell row c hc, hce]
        rfl
      unfold buildVertex
      dsimp only
      rw [hcell, sub_self, zero_mul]

/-- Witness for C4: the 2×2 grid [[0, 1], [2, 3]] with cell size 1 and
exaggeration 5 yields 4 vertices, 2 faces, in-range indices and minimum
y-coordinate 0. -/
theorem build_mesh_invariants_witness :
    (build_mesh_vertices [[0, 1], [2, 3]] 1 5).length = 2 * 2 ∧
    (build_mesh_faces 2 2).length = 2 * (2 - 1) * (2 - 1) ∧
    (∀ f ∈ build_mesh_faces 2 2, f.1 < 2 * 2 ∧ f.2.1 < 2 * 2 ∧ f.2.2 < 2 * 2) ∧
    (∀ v ∈ build_mesh_vertices [[0, 1], [2, 3]] 1 5, 0 ≤ v.2.1) ∧
    (∃ v ∈ build_mesh_vertices [[0, 1], [2, 3]] 1 5, v.2.1 = 0) :=
  build_mesh_invariants 2 [[0, 1], [2, 3]] 1 5 (by norm_num) rfl
    (by simp) (by norm_num)

/-- Counterexample to C1: with grid [[5]], exaggeration 1 and minimum
elevation 3 (not the grid minimum), the exported heightmap is [2] while the
mesh y-coordinates are [0]: the arrays differ. -/
theorem heightmap_mesh_mismatch :
    export_heightmap [[5]] 1 3 = [2] ∧
    (build_mesh_vertices [[5]] 1 1).map (fun v => v.2.1) = [0] ∧
    export_heightmap [[5]] 1 3 ≠
      (build_mesh_vertices [[5]] 1 1).map (fun v => v.2.1) := by
  have h1 : export_heightmap [[5]] 1 3 = [2] := by
    norm_num [export_heightmap]
  have h2 : (build_mesh_vertices [[5]] 1 1).map (fun v => v.2.1) = [0] := by
    norm_num [build_mesh_vertices, buildVertex, cellAt, elevMin, listMin,
      gridCols, halfExtent, List.range_succ]
  refine ⟨h1, h2, ?_⟩
  rw [h1, h2]
  simp

/-- Claim C1 (amended): when the minimum handed to the heightmap export is
the grid minimum — as the pipeline always passes it — the exported flat
row-major array equals, cell for cell, the y-coordinates of the mesh
vertices built from the same grid and exaggeration. -/
theorem heightmap_matches_mesh (g : Grid) (cellSize vertExag : ℚ)
    (hrect : Rect g) :
    export_heightmap g vertExag (elevMin g) =
      (build_mesh_vertices g cellSize vertExag).map (fun v => v.2.1) := by
  have hrow : ∀ r ∈ List.range g.length,
      (List.range (gridCols g)).map
        ((fun v : ℚ × ℚ × ℚ => v.2.1) ∘ buildVertex g cellSize vertExag r) =
      (g.getD r []).map (fun e => (e - elevMin g) * vertExag) := by
    intro r hr
    have hlen : (g.getD r []).length = gridCols g :=
      hrect _ (getD_mem_row g r (List.mem_range.mp hr))
    rw [← hlen,
      ← map_range_getD (fun e => (e - elevMin g) * vertExag) 0 (g.getD r [])]
    exact List.map_congr_left fun c hc => rfl
  symm
  calc (build_mesh_vertices g cellSize vertExag).map (fun v => v.2.1)
      = (List.range g.length).flatMap
          (fun r => (List.range (gridCols g)).map
            ((fun v : ℚ × ℚ × ℚ => v.2.1) ∘ buildVertex g cellSize vertExag r)) := by
        rw [build_mesh_vertices, List.map_flatMap]
        simp only [List.map_map]
    _ = (List.range g.length).flatMap
          (fun r => (g.getD r []).map (fun e => (e - elevMin g) * vertExag)) := by
        unfold List.flatMap
        exact congrArg List.flatten (List.map_congr_left hrow)
    _ = (g.map (fun row => row.map (fun e => (e - elevMin g) * vertExag))).flatten := by
        unfold List.flatMap
        exact congrArg List.flatten (map_range_getD _ [] g)
    _ = g.flatten.map (fun e => (e - elevMin g) * vertExag) :=
        (List.map_flatten _ g).symm
    _ = export_heightmap g vertExag (elevMin g) := rfl

/-- Witness for C1 (amended): on the rectangular grid [[1, 2], [3, 4]] with
exaggeration 2 the exported heightmap equals the mesh y-coordinates. -/
theorem heightmap_matches_mesh_witness :
    export_heightmap [[1, 2], [3, 4]] 2 (elevMin [[1, 2], [3, 4]]) =
      (build_mesh_vertices [[1, 2], [3, 4]] 1 2).map (fun v => v.2.1) :=
  heightmap_matches_mesh [[1, 2], [3, 4]] 1 2 (by decide)

/-! ### Elevation fusion: nodata repair and resampling -/

/-- The nodata-repair pattern shared by both loading paths: every cell
flagged by `flag` is replaced by the minimum non-flagged value of the whole
array, or by 0 when no non-flagged cell exists (`listMin [] = 0` matches the
source's `valid.min() if len(valid) > 0 else 0`; when nothing is flagged the
source skips the assignment, which is the same as replacing nothing). -/
def replaceFlagged (flag : ℚ → Bool) (data : Grid) : Grid :=
  let fill := listMin (data.flatten.filter fun x => !(flag x))
  data.map (List.map fun x => if flag x then fill else x)

/-- Modelled from the spec: `scipy.ndimage.zoom` is an external library call
(not part of this repository).  Its documented output shape is
`round(dim * factor)` per axis; cell values are modelled as samples of the
input grid (the spec's smooth interpolation), so a constant grid resamples
to the same constant. -/
def zoomLength (d : ℕ) (z : ℚ) : ℕ := (round ((d : ℚ) * z)).toNat

/-- Modelled from the spec: value part of `scipy.ndimage.zoom` — each output
cell samples the input cell at the proportional (clamped) position. -/
def zoomGrid (g : Grid) (zy zx : ℚ) : Grid :=
  (List.range (zoomLength g.length zy)).map fun i =>
    (List.range (zoomLength (gridCols g) zx)).map fun j =>
      cellAt g (min (g.length - 1) (i * g.length / zoomLength g.length zy))
        (min (gridCols g - 1) (j * gridCols g / zoomLength (gridCols g) zx))

/-- The resampling step shared by both loading paths (lines 164-167 and
205-209): if the shape is not already `grid_size × grid_size`, zoom by
`grid_size / shape` per axis. -/
def resampleToGrid (d : Grid) (grid_size : ℕ) : Grid :=
  if d.length = grid_size ∧ gridCols d = grid_size then d
  else zoomGrid d ((grid_size : ℚ) / (d.length : ℚ))
    ((grid_size : ℚ) / (gridCols d : ℚ))

/-- The repair-and-resample core of `load_srtm_tiles` (multi-raster path,
lines 157-169), applied to the merged-and-cropped array: only the
`≤ −1000` sentinel check is performed — the declared nodata value of the
rasters is never consulted on this path. -/
def load_srtm_tiles (data : Grid) (grid_size : ℕ) : Grid :=
  resampleToGrid (replaceFlagged (fun x => decide (x ≤ -1000)) data) grid_size

/-- The repair-and-resample core of `load_and_resample` (single-raster path,
lines 185-209), applied to the cropped window: first cells equal to the
raster's declared nodata (if any) are repaired, then the `≤ −1000` sentinel
check runs, then the resample. -/
def load_and_resample (nodata : Option ℚ) (data : Grid) (grid_size : ℕ) : Grid :=
  let d1 := match nodata with
    | none => data
    | some nd => replaceFlagged (fun x => decide (x = nd)) data
  resampleToGrid (replaceFlagged (fun x => decide (x ≤ -1000)) d1) grid_size

lemma replaceFlagged_length (flag : ℚ → Bool) (data : Grid) :
    (replaceFlagged flag data).length = data.length := by
  simp [replaceFlagged]

lemma replaceFlagged_cols (flag : ℚ → Bool) (data : Grid) :
    gridCols (replaceFlagged flag data) = gridCols data := by
  cases data with
  | nil => rfl
  | cons a t => simp [replaceFlagged, gridCols]

lemma replaceFlagged_rect (flag : ℚ → Bool) (data : Grid) (h : Rect data) :
    Rect (replaceFlagged flag data) := by
  intro row hrow
  rw [replaceFlagged_cols]
  simp only [replaceFlagged, List.mem_map] at hrow
  obtain ⟨r0, hr0, rfl⟩ := hrow
  rw [List.length_map]
  exact h r0 hr0

/-- Every value of a repaired grid is either an unflagged original value or
the fill value (the minimum unflagged value, 0 when there is none). -/
lemma replaceFlagged_flatten_mem (flag : ℚ → Bool) (data : Grid) :
    ∀ x ∈ (replaceFlagged flag data).flatten,
      (x ∈ data.flatten ∧ flag x = false) ∨
      x = listMin (data.flatten.filter fun y => !(flag y)) := by
  intro x hx
  unfold replaceFlagged at hx
  rw [← List.map_flatten] at hx
  obtain ⟨y, hy, hxy⟩ := List.mem_map.mp hx
  by_cases hfy : flag y
  · right; rw [← hxy, if_pos hfy]
  · left
    have hfy2 : flag y = false := by simpa using hfy
    rw [← hxy, if_neg (by simp [hfy2])]
    exact ⟨hy, hfy2⟩

/-- After the sentinel repair, every value is strictly above −1000. -/
lemma sentinel_repair_gt (data : Grid) :
    ∀ x ∈ (replaceFlagged (fun x => decide (x ≤ -1000)) data).flatten,
      -1000 < x := by
  intro x hx
  rcases replaceFlagged_flatten_mem _ data x hx with ⟨_, hflag⟩ | hfill
  · have : ¬ x ≤ -1000 := by simpa using hflag
    linarith
  · rcases hval : data.flatten.filter (fun y => !(decide (y ≤ -1000))) with _ | ⟨a, l⟩
    · rw [hfill, hval]; norm_num [listMin]
    · have hmem : listMin (data.flatten.filter fun y => !(decide (y ≤ -1000))) ∈
          data.flatten.filter (fun y => !(decide (y ≤ -1000))) :=
        listMin_mem _ (by rw [hval]; exact List.cons_ne_nil a l)
      have := (List.mem_filter.mp hmem).2
      have hnot : ¬ listMin (data.flatten.filter fun y => !(decide (y ≤ -1000))) ≤ -1000 := by
        simpa using this
      rw [hfill]
      linarith

/-- If every input value is a sentinel, every repaired value is a sentinel
or the zero fill. -/
lemma repair_all_bad (flag : ℚ → Bool) (data : Grid)
    (hall : ∀ x ∈ data.flatten, x ≤ -1000) :
    ∀ x ∈ (replaceFlagged flag data).flatten, x ≤ -1000 ∨ x = 0 := by
  intro x hx
  rcases replaceFlagged_flatten_mem flag data x hx with ⟨hmem, _⟩ | hfill
  · exact Or.inl (hall x hmem)
  · rcases hval : data.flatten.filter (fun y => !(flag y)) with _ | ⟨a, l⟩
    · rw [hfill, hval]; right; rfl
    · left
      have hmem2 : listMin (data.flatten.filter fun y => !(flag y)) ∈
          data.flatten.filter (fun y => !(flag y)) :=
        listMin_mem _ (by rw [hval]; exact List.cons_ne_nil a l)
      rw [hfill]
      exact hall _ (List.mem_of_mem_filter hmem2)

/-- Sentinel repair of a grid whose values are all sentinels or zeros yields
all zeros. -/
lemma sentinel_repair_zero (data : Grid)
    (hall : ∀ x ∈ data.flatten, x ≤ -1000 ∨ x = 0) :
    ∀ x ∈ (replaceFlagged (fun x => decide (x ≤ -1000)) data).flatten,
      x = 0 := by
  intro x hx
  rcases replaceFlagged_flatten_mem _ data x hx with ⟨hmem, hflag⟩ | hfill
  · have hnot : ¬ x ≤ -1000 := by simpa using hflag
    rcases hall x hmem with h | h
    · exact absurd h hnot
    · exact h
  · rcases hval : data.flatten.filter (fun y => !(decide (y ≤ -1000))) with _ | ⟨a, l⟩
    · rw [hfill, hval]; rfl
    · have hmem2 : listMin (data.flatten.filter fun y => !(decide (y ≤ -1000))) ∈
          data.flatten.filter (fun y => !(decide (y ≤ -1000))) :=
        listMin_mem _ (by rw [hval]; exact List.cons_ne_nil a l)
      obtain ⟨hmem3, hflag3⟩ := List.mem_filter.mp hmem2
      have hnot : ¬ listMin (data.flatten.filter fun y => !(decide (y ≤ -1000))) ≤ -1000 := by
        simpa using hflag3
      rcases hall _ hmem3 with h | h
      · exact absurd h hnot
      · rw [hfill]; exact h

lemma zoomLength_self (d n : ℕ) (hd : 0 < d) :
    zoomLength d ((n : ℚ) / (d : ℚ)) = n := by
  unfold zoomLength
  have hd0 : ((d : ℚ)) ≠ 0 := Nat.cast_ne_zero.mpr (by omega)
  rw [mul_comm, div_mul_cancel₀ _ hd0, round_natCast, Int.toNat_ofNat]

lemma zoomGrid_length (g : Grid) (zy zx : ℚ) :
    (zoomGrid g zy zx).length = zoomLength g.length zy := by
  simp [zoomGrid]

lemma zoomGrid_rows (g : Grid) (zy zx : ℚ) :
    ∀ row ∈ zoomGrid g zy zx, row.length = zoomLength (gridCols g) zx := by
  intro row hrow
  simp only [zoomGrid, List.mem_map] at hrow
  obtain ⟨i, _, rfl⟩ := hrow
  simp

/-- Every cell of the zoomed grid is a cell of the input grid (the input
being nonempty and rectangular). -/
lemma zoomGrid_mem (g : Grid) (zy zx : ℚ) (h1 : 0 < g.length)
    (h2 : 0 < gridCols g) (hrect : Rect g) :
    ∀ x ∈ (zoomGrid g zy zx).flatten, x ∈ g.flatten := by
  intro x hx
  obtain ⟨row, hrowm, hxrow⟩ := List.mem_flatten.mp hx
  simp only [zoomGrid, List.mem_map] at hrowm
  obtain ⟨i, _, rfl⟩ := hrowm
  obtain ⟨j, _, rfl⟩ := List.mem_map.mp hxrow
  have hr : min (g.length - 1) (i * g.length / zoomLength g.length zy) <
      g.length := by
    have : min (g.length - 1) (i * g.length / zoomLength g.length zy) ≤
        g.length - 1 := min_le_left _ _
    omega
  have hrowlen : (g.getD (min (g.length - 1)
      (i * g.length / zoomLength g.length zy)) []).length = gridCols g :=
    hrect _ (getD_mem_row g _ hr)
  have hc : min (gridCols g - 1)
      (j * gridCols g / zoomLength (gridCols g) zx) <
      (g.getD (min (g.length - 1) (i * g.length / zoomLength g.length zy)) []).length := by
    rw [hrowlen]
    have : min (gridCols g - 1) (j * gridCols g / zoomLength (gridCols g) zx) ≤
        gridCols g - 1 := min_le_left _ _
    omega
  exact cellAt_mem_flatten g _ _ hr hc

lemma resampleToGrid_shape (d : Grid) (N : ℕ) (h1 : 0 < d.length)
    (h2 : 0 < gridCols d) (hrect : Rect d) :
    (resampleToGrid d N).length = N ∧
    ∀ row ∈ resampleToGrid d N, row.length = N := by
  unfold resampleToGrid
  split_ifs with h
  · exact ⟨h.1, fun row hrow => by rw [hrect row hrow, h.2]⟩
  · constructor
    · rw [zoomGrid_length, zoomLength_self _ _ h1]
    · intro row hrow
      rw [zoomGrid_rows _ _ _ row hrow, zoomLength_self _ _ h2]

lemma resampleToGrid_mem (d : Grid) (N : ℕ) (h1 : 0 < d.length)
    (h2 : 0 < gridCols d) (hrect : Rect d) :
    ∀ x ∈ (resampleToGrid d N).flatten, x ∈ d.flatten := by
  unfold resampleToGrid
  split_ifs with h
  · exact fun x hx => hx
  · exact zoomGrid_mem d _ _ h1 h2 hrect

/-- Sentinel repair followed by resampling leaves every value above −1000. -/
lemma path_gt (d1 : Grid) (N : ℕ) (h1 : 0 < d1.length) (h2 : 0 < gridCols d1)
    (hrect : Rect d1) :
    ∀ x ∈ (resampleToGrid (replaceFlagged (fun x => decide (x ≤ -1000)) d1) N).flatten,
      -1000 < x :=
  fun x hx => sentinel_repair_gt d1 x
    (resampleToGrid_mem _ N (by rw [replaceFlagged_length]; exact h1)
      (by rw [replaceFlagged_cols]; exact h2)
      (replaceFlagged_rect _ _ hrect) x hx)

/-- Sentinel repair followed by resampling of an all-sentinel-or-zero grid
yields only zeros. -/
lemma path_zero (d1 : Grid) (N : ℕ) (h1 : 0 < d1.length) (h2 : 0 < gridCols d1)
    (hrect : Rect d1) (hall : ∀ x ∈ d1.flatten, x ≤ -1000 ∨ x = 0) :
    ∀ x ∈ (resampleToGrid (replaceFlagged (fun x => decide (x ≤ -1000)) d1) N).flatten,
      x = 0 :=
  fun x hx => sentinel_repair_zero d1 hall x
    (resampleToGrid_mem _ N (by rw [replaceFlagged_length]; exact h1)
      (by rw [replaceFlagged_cols]; exact h2)
      (replaceFlagged_rect _ _ hrect) x hx)

/-- Claim C3: for every requested grid size N and every non-empty
(rectangular) cropped input raster, the fused output grid is exactly N×N —
in both the single-raster and the multi-raster paths, whether the input is
smaller than N×N (upsampling) or larger (downsampling). -/
theorem fusion_output_square (nodata : Option ℚ) (data : Grid) (N : ℕ)
    (h1 : 0 < data.length) (h2 : 0 < gridCols data) (hrect : Rect data) :
    ((load_and_resample nodata data N).length = N ∧
      ∀ row ∈ load_and_resample nodata data N, row.length = N) ∧
    ((load_srtm_tiles data N).length = N ∧
      ∀ row ∈ load_srtm_tiles data N, row.length = N) := by
  constructor
  · cases nodata with
    | none =>
      exact resampleToGrid_shape _ N (by rw [replaceFlagged_length]; exact h1)
        (by rw [replaceFlagged_cols]; exact h2)
        (replaceFlagged_rect _ _ hrect)
    | some nd =>
      exact resampleToGrid_shape _ N
        (by rw [replaceFlagged_length, replaceFlagged_length]; exact h1)
        (by rw [replaceFlagged_cols, replaceFlagged_cols]; exact h2)
        (replaceFlagged_rect _ _ (replaceFlagged_rect _ _ hrect))
  · exact resampleToGrid_shape _ N (by rw [replaceFlagged_length]; exact h1)
      (by rw [replaceFlagged_cols]; exact h2)
      (replaceFlagged_rect _ _ hrect)

/-- Witness for C3: the 2×2 raster [[1, 2], [3, 4]] resampled to grid size 3
yields a 3×3 grid on both paths. -/
theorem fusion_output_square_witness :
    ((load_and_resample (some (-5)) [[1, 2], [3, 4]] 3).length = 3 ∧
      ∀ row ∈ load_and_resample (some (-5)) [[1, 2], [3, 4]] 3, row.length = 3) ∧
    ((load_srtm_tiles [[1, 2], [3, 4]] 3).length = 3 ∧
      ∀ row ∈ load_srtm_tiles [[1, 2], [3, 4]] 3, row.length = 3) :=
  fusion_output_square (some (-5)) [[1, 2], [3, 4]] 3 (by norm_num)
    (by norm_num [gridCols]) (by decide)

/-- Counterexample to C2: the multi-raster path never consults the declared
nodata value.  On the merged array [[-999, 5], [5, 5]] whose raster declares
nodata = −999, the multi-raster path leaves −999 in place (it is above the
−1000 sentinel), while applying both checks — as the single-raster path
does — would repair it to the minimum valid value 5. -/
theorem multi_path_skips_declared_nodata :
    load_srtm_tiles [[-999, 5], [5, 5]] 2 = [[-999, 5], [5, 5]] ∧
    load_and_resample (some (-999)) [[-999, 5], [5, 5]] 2 = [[5, 5], [5, 5]] := by
  constructor
  · norm_num [load_srtm_tiles, resampleToGrid, replaceFlagged, gridCols,
      listMin, List.filter_cons, List.filter_nil, decide_eq_true_eq]
  · norm_num [load_and_resample, resampleToGrid, replaceFlagged, gridCols,
      listMin, List.filter_cons, List.filter_nil, decide_eq_true_eq]

/-- Claim C2 (amended): the single-raster path applies both nodata checks
(declared nodata, then the ≤ −1000 sentinel); the multi-raster path applies
only the sentinel check.  Every flagged cell is replaced by the minimum
valid value, or 0 when none exists; consequently after fusion no value is
≤ −1000 on either path, and an all-sentinel input fuses to an all-zero
grid on either path. -/
theorem fusion_nodata_repair (nodata : Option ℚ) (data : Grid) (N : ℕ)
    (h1 : 0 < data.length) (h2 : 0 < gridCols data) (hrect : Rect data) :
    (∀ x ∈ (load_and_resample nodata data N).flatten, -1000 < x) ∧
    (∀ x ∈ (load_srtm_tiles data N).flatten, -1000 < x) ∧
    ((∀ x ∈ data.flatten, x ≤ -1000) →
      (∀ x ∈ (load_and_resample nodata data N).flatten, x = 0) ∧
      (∀ x ∈ (load_srtm_tiles data N).flatten, x = 0)) := by
  cases nodata with
  | none =>
    exact ⟨path_gt data N h1 h2 hrect, path_gt data N h1 h2 hrect,
      fun hall => ⟨path_zero data N h1 h2 hrect (fun y hy => Or.inl (hall y hy)),
        path_zero data N h1 h2 hrect (fun y hy => Or.inl (hall y hy))⟩⟩
  | some nd =>
    have e1 : 0 < (replaceFlagged (fun x => decide (x = nd)) data).length := by
      rw [replaceFlagged_length]; exact h1
    have e2 : 0 < gridCols (replaceFlagged (fun x => decide (x = nd)) data) := by
      rw [replaceFlagged_cols]; exact h2
    have e3 : Rect (replaceFlagged (fun x => decide (x = nd)) data) :=
      replaceFlagged_rect _ _ hrect
    exact ⟨path_gt _ N e1 e2 e3, path_gt data N h1 h2 hrect,
      fun hall => ⟨path_zero _ N e1 e2 e3 (repair_all_bad _ data hall),
        path_zero data N h1 h2 hrect (fun y hy => Or.inl (hall y hy))⟩⟩

/-- Witness for C2 (amended): the all-sentinel 2×2 input [[-2000, -2000],
[-2000, -2000]] fuses, on both paths, to values above −1000 — in fact all
zero. -/
theorem fusion_nodata_repair_witness :
    (∀ x ∈ (load_and_resample (some (-999)) [[-2000, -2000], [-2000, -2000]] 2).flatten,
      -1000 < x) ∧
    (∀ x ∈ (load_srtm_tiles [[-2000, -2000], [-2000, -2000]] 2).flatten,
      -1000 < x) ∧
    ((∀ x ∈ ([[-2000, -2000], [-2000, -2000]] : Grid).flatten, x ≤ -1000) →
      (∀ x ∈ (load_and_resample (some (-999)) [[-2000, -2000], [-2000, -2000]] 2).flatten,
        x = 0) ∧
      (∀ x ∈ (load_srtm_tiles [[-2000, -2000], [-2000, -2000]] 2).flatten,
        x = 0)) :=
  fusion_nodata_repair (some (-999)) [[-2000, -2000], [-2000, -2000]] 2
    (by norm_num) (by norm_num [gridCols]) (by decide)

/-! ### SRTM tile enumeration (`get_srtm_tile_names`) -/

/-- Python `range(a, b + 1)` over integers. -/
def intRange (a b : ℤ) : List ℤ :=
  (List.range (b + 1 - a).toNat).map fun i : ℕ => a + (i : ℤ)

/-- Zero-padded decimal rendering, Python `f"{n:0wd}"`. -/
def natPad (w n : ℕ) : String :=
  String.mk (List.replicate (w - (toString n).length) '0') ++ toString n

/-- The tile name built on line 63-65: hemisphere letter and two-digit
absolute latitude, then hemisphere letter and three-digit absolute
longitude. -/
def tileName (lat lon : ℤ) : String :=
  (if 0 ≤ lat then "N" else "S") ++ natPad 2 lat.natAbs ++
    (if 0 ≤ lon then "E" else "W") ++ natPad 3 lon.natAbs

/-- `get_srtm_tile_names(bounds)`: one entry per integer-degree cell from
floor(south)..floor(north) × floor(west)..floor(east). -/
def get_srtm_tile_names (south west north east : ℚ) : List (String × ℤ × ℤ) :=
  (intRange ⌊south⌋ ⌊north⌋).flatMap fun la =>
    (intRange ⌊west⌋ ⌊east⌋).map fun lo => (tileName la lo, la, lo)

lemma intRange_mem (a b x : ℤ) : x ∈ intRange a b ↔ a ≤ x ∧ x ≤ b := by
  unfold intRange
  rw [List.mem_map]
  constructor
  · rintro ⟨i, hi, rfl⟩
    rw [List.mem_range] at hi
    have h2 : (i : ℤ) < b + 1 - a := Int.lt_toNat.mp hi
    have h3 : (0:ℤ) ≤ (i : ℤ) := Int.natCast_nonneg i
    constructor <;> linarith
  · intro h
    refine ⟨(x - a).toNat, ?_, ?_⟩
    · rw [List.mem_range]
      exact (Int.toNat_lt_toNat (by linarith)).mpr (by linarith)
    · rw [Int.toNat_of_nonneg (by linarith : (0:ℤ) ≤ x - a)]
      ring

lemma intRange_pairwise_lt (a b : ℤ) : (intRange a b).Pairwise (· < ·) := by
  unfold intRange
  rw [List.pairwise_map]
  refine (List.sorted_lt_range _).imp ?_
  intro i j h
  dsimp only
  omega

/-- Claim C6: the enumeration contains each integer-degree pair in the
floor-span of the box exactly once and nothing else; every entry carries the
hemisphere-prefixed zero-padded name; the order is lexicographic in
(lat, lon) — deterministic; and the concrete names match the spec's format
(39°S 177°E gives "S39E177"; padding gives "N05W007"). -/
theorem srtm_tile_enumeration (south west north east : ℚ)
    (hsn : south < north) (hwe : west < east) :
    (∀ t ∈ get_srtm_tile_names south west north east,
      t.1 = tileName t.2.1 t.2.2 ∧ ⌊south⌋ ≤ t.2.1 ∧ t.2.1 ≤ ⌊north⌋ ∧
        ⌊west⌋ ≤ t.2.2 ∧ t.2.2 ≤ ⌊east⌋) ∧
    (∀ la lo : ℤ, ⌊south⌋ ≤ la → la ≤ ⌊north⌋ → ⌊west⌋ ≤ lo → lo ≤ ⌊east⌋ →
      (tileName la lo, la, lo) ∈ get_srtm_tile_names south west north east) ∧
    ((get_srtm_tile_names south west north east).map
      (fun t => (t.2.1, t.2.2))).Nodup ∧
    List.Pairwise
      (fun s t => s.2.1 < t.2.1 ∨ (s.2.1 = t.2.1 ∧ s.2.2 < t.2.2))
      (get_srtm_tile_names south west north east) ∧
    tileName (-39) 177 = "S39E177" ∧ tileName 5 (-7) = "N05W007" := by
  have hpair : List.Pairwise
      (fun s t => s.2.1 < t.2.1 ∨ (s.2.1 = t.2.1 ∧ s.2.2 < t.2.2))
      (get_srtm_tile_names south west north east) := by
    unfold get_srtm_tile_names
    rw [List.pairwise_flatMap]
    constructor
    · intro la _
      rw [List.pairwise_map]
      exact (intRange_pairwise_lt _ _).imp fun h => Or.inr ⟨rfl, h⟩
    · refine (intRange_pairwise_lt _ _).imp ?_
      intro la1 la2 hlt x hx y hy
      obtain ⟨lo1, _, rfl⟩ := List.mem_map.mp hx
      obtain ⟨lo2, _, rfl⟩ := List.mem_map.mp hy
      exact Or.inl hlt
  refine ⟨?_, ?_, ?_, hpair, by decide, by decide⟩
  · intro t ht
    simp only [get_srtm_tile_names, List.mem_flatMap, List.mem_map] at ht
    obtain ⟨la, hla, lo, hlo, rfl⟩ := ht
    obtain ⟨h1, h2⟩ := (intRange_mem _ _ _).mp hla
    obtain ⟨h3, h4⟩ := (intRange_mem _ _ _).mp hlo
    exact ⟨rfl, h1, h2, h3, h4⟩
  · intro la lo h1 h2 h3 h4
    simp only [get_srtm_tile_names, List.mem_flatMap, List.mem_map]
    exact ⟨la, (intRange_mem _ _ _).mpr ⟨h1, h2⟩,
      lo, (intRange_mem _ _ _).mpr ⟨h3, h4⟩, rfl⟩
  · have hnd : List.Pairwise
        (fun s t : String × ℤ × ℤ =>
          (s.2.1, s.2.2) ≠ (t.2.1, t.2.2))
        (get_srtm_tile_names south west north east) := by
      refine hpair.imp ?_
      intro a b hab heq
      rcases hab with h | ⟨h1, h2⟩
      · rw [Prod.ext_iff] at heq
        exact absurd (heq.1 ▸ h) (lt_irrefl _)
      · rw [Prod.ext_iff] at heq
        exact absurd (heq.2 ▸ h2) (lt_irrefl _)
    show List.Pairwise (· ≠ ·) _
    exact List.pairwise_map.mpr hnd

/-- Witness for C6: the box of the Wairoa example (south −39.07, west
177.38, north −39.03, east 177.44) enumerates exactly the one tile
(−40, 177), named "S40E177". -/
theorem srtm_tile_enumeration_witness :
    (∀ t ∈ get_srtm_tile_names (-39.07) 177.38 (-39.03) 177.44,
      t.1 = tileName t.2.1 t.2.2 ∧
        ⌊(-39.07 : ℚ)⌋ ≤ t.2.1 ∧ t.2.1 ≤ ⌊(-39.03 : ℚ)⌋ ∧
        ⌊(177.38 : ℚ)⌋ ≤ t.2.2 ∧ t.2.2 ≤ ⌊(177.44 : ℚ)⌋) ∧
    (∀ la lo : ℤ, ⌊(-39.07 : ℚ)⌋ ≤ la → la ≤ ⌊(-39.03 : ℚ)⌋ →
      ⌊(177.38 : ℚ)⌋ ≤ lo → lo ≤ ⌊(177.44 : ℚ)⌋ →
      (tileName la lo, la, lo) ∈ get_srtm_tile_names (-39.07) 177.38 (-39.03) 177.44) ∧
    ((get_srtm_tile_names (-39.07) 177.38 (-39.03) 177.44).map
      (fun t => (t.2.1, t.2.2))).Nodup ∧
    List.Pairwise
      (fun s t => s.2.1 < t.2.1 ∨ (s.2.1 = t.2.1 ∧ s.2.2 < t.2.2))
      (get_srtm_tile_names (-39.07) 177.38 (-39.03) 177.44) ∧
    tileName (-39) 177 = "S39E177" ∧ tileName 5 (-7) = "N05W007" :=
  srtm_tile_enumeration (-39.07) 177.38 (-39.03) 177.44
    (by norm_num) (by norm_num)

end FloodSim
